import Mathlib

/-!
Shallow embedding of the pybare codec core (`src/bare/encoder.py`) and
verification of its specification claims.

Conventions of the embedding:
* Python byte strings are `List Nat` (each entry a byte value written by
  `struct.pack("<B", ...)`).
* Python strings are represented by their UTF-8 byte lists.
* A file-like source is a `List Nat`; readers return the value read together
  with the remaining bytes.
* Fallible Python code returns `Except PyError α`; the constructors of
  `PyError` name the Python exception classes the source can actually raise.
  On an error the model drops bytes already written to the sink; where a
  claim depends on those partial writes this is noted at the theorem.
* Python `int` is `Int` (arbitrary precision); loop variables that are
  provably non-negative are `Nat`.
-/

/-- The Python exception classes raised by code under `src/bare/encoder.py`
and by the runtime operations it performs.  The source defines exactly one
error class of its own, `ValidationError` (line 14); the others are builtin
Python exceptions raised by specific expressions in the source. -/
inductive PyError where
  /-- raised explicitly by the source as its own error class. -/
  | validationError
  /-- builtin `TypeError`, e.g. `len(None)` or tuple-unpacking a `bool`. -/
  | typeError
  /-- builtin `IndexError`, e.g. `b""[0]` or `list[i]` out of range. -/
  | indexError
  /-- builtin `NameError`, e.g. the undefined `cls` in `Array.validate`. -/
  | nameError
  /-- builtin `AttributeError`, e.g. `self.__class__.__length` in `Array._pack`. -/
  | attributeError
  /-- builtin `ValueError`, e.g. a negative absolute `seek`. -/
  | valueError
deriving Repr, DecidableEq

/-- The `while val >= 0x80` loop of `_write_varint` (src 553-563) acting on the
already sign-transformed, non-negative value: while `val >= 0x80` it emits
`struct.pack("<B", (val & 0xFF) | 0x80)` and shifts `val >>= 7`, then emits the
final byte `val`. -/
def writeUVarintNat (val : Nat) : List Nat :=
  if h : 0x80 ≤ val then ((val &&& 0xFF) ||| 0x80) :: writeUVarintNat (val >>> 7)
  else [val]
termination_by val
decreasing_by
  rw [Nat.shiftRight_eq_div_pow]
  exact Nat.div_lt_self (by omega) (by norm_num)

/-- Modelled from the spec, for comparison with `writeUVarintNat`:
"repeatedly emit `(v & 0x7f) | 0x80` while `v ≥ 0x80`, shifting `v >>= 7`;
emit the final `v` byte with the continuation bit clear". -/
def spec_encodeUVarint (v : Nat) : List Nat :=
  if h : 0x80 ≤ v then ((v &&& 0x7F) ||| 0x80) :: spec_encodeUVarint (v >>> 7)
  else [v]
termination_by v
decreasing_by
  rw [Nat.shiftRight_eq_div_pow]
  exact Nat.div_lt_self (by omega) (by norm_num)

/-- Modelled from the spec, for comparison with the sign transform in
`_write_varint`: "zigzag(n) = 2n if n≥0 else 2|n|-1". -/
def spec_zigzag (n : Int) : Nat :=
  if 0 ≤ n then (2 * n).toNat else (2 * |n| - 1).toNat

/-- Embeds `_write_varint` (src 553-563): the signed branch maps `val` to
`(2 * abs(val)) - 1` when negative and `2 * val` otherwise, then both branches
run the unsigned emission loop.  (The claims only exercise it on values that
are non-negative after this transform, matching Python, where a negative
residual would crash `struct.pack("<B", ...)`.) -/
def write_varint (val : Int) (signed : Bool) : List Nat :=
  let v : Int :=
    if signed then (if val < 0 then 2 * (val.natAbs : Int) - 1 else 2 * val)
    else val
  writeUVarintNat v.toNat

/-- The `while True` loop of `_read_varint` (src 566-580): `fp.read(1)[0]` on an
exhausted source raises `IndexError` (`read` returns `b""`); a byte below
`0x80` terminates with `output | b << offset`; otherwise the loop accumulates
`output |= (b & 0x7F) << offset` and advances `offset += 7`. -/
def readUVarintLoop : List Nat → Nat → Nat → Except PyError (Nat × List Nat)
  | [], _, _ => .error .indexError
  | b :: rest, output, offset =>
    if b < 0x80 then .ok (output ||| (b <<< offset), rest)
    else readUVarintLoop rest (output ||| ((b &&& 0x7F) <<< offset)) (offset + 7)

/-- Embeds `_read_varint` (src 566-580): run the loop, then if `signed`, undo the
zigzag with `sign = value % 2; value = value // 2; if sign: value = -(value+1)`. -/
def read_varint (bs : List Nat) (signed : Bool) : Except PyError (Int × List Nat) :=
  match readUVarintLoop bs 0 0 with
  | .error e => .error e
  | .ok (value, rest) =>
    if signed then
      let sign := value % 2
      let q : Nat := value / 2
      .ok ((if sign = 1 then -((q : Int) + 1) else (q : Int)), rest)
    else
      .ok ((value : Int), rest)

/-- Embeds `_write_string` (src 539-544): UTF-8 encode, write the byte count as an
unsigned varint, then the raw bytes.  Strings enter the model already as their
UTF-8 byte lists. -/
def write_string (s : List Nat) : List Nat :=
  writeUVarintNat s.length ++ s

/-- The pack behaviour of a `Str` field value as the engine invokes it:
`_dump` (src 586-587) encodes `BareType.String` via `_write_string`, which
starts with `val.encode("utf-8")`; invoking it on a missing value (`None`)
has no `encode` method and raises `AttributeError`. -/
def strFieldPack : Option (List Nat) → Except PyError (List Nat)
  | some s => .ok (write_string s)
  | none => .error .attributeError

/-- Embeds `Optional._pack` (src 470-475): `value` defaults to `self._value`; when the
resulting value is `None` the byte `0x00` is written; then, unconditionally,
`self._wrapped._pack(fp, value=value)` runs — there is no `0x01` presence byte
for present values.  (In Python the `0x00` is already in the sink if the
wrapped pack then raises; the `Except` model drops those partial bytes.) -/
def Optional_pack {V : Type} (wrappedPack : Option V → Except PyError (List Nat))
    (selfValue : Option V) (value : Option V) : Except PyError (List Nat) :=
  let v := match value with
    | none => selfValue
    | some _ => value
  match v with
  | none => (wrappedPack none).map (fun bs => 0 :: bs)
  | some _ => wrappedPack v

/-- One declared union member as `Union._pack`/`Union.validate` see it:
its Python class identity (`typeId`, compared with `type(member) == type(value)`),
its `validate` method (returning a `(bool, message)` pair), and its `_pack`. -/
structure UMember (V : Type) where
  typeId : Nat
  validate : V → Bool × Option String
  pack : V → List Nat

/-- A runtime value as `Union._pack` classifies it: either an instance of a
`Field`/`Struct` subclass (carrying its class identity) or a native Python
value. -/
inductive UVal (V : Type) where
  | fieldVal (typeId : Nat) (v : V)
  | native (v : V)

/-- The underlying value handed on to the chosen member's `_pack`. -/
def uvalValue {V : Type} : UVal V → V
  | .fieldVal _ v => v
  | .native v => v

/-- The member loop of `Union.validate` (src 510-514) as reached for a native
(non-`Field`) value: the union accepts the value iff some member's `validate`
does. -/
def unionValidateNative {V : Type} (members : List (UMember V)) (v : V) : Bool :=
  members.any (fun m => (m.validate v).1)

/-- The `for id, member in enumerate(self._members)` loop of `Union._pack`
(src 519-531).  For a `Field`/`Struct` value the member is accepted when
`type(member) == type(value)`; for any other value the code runs
`valid, _ = self.validate(value)` — validity against the WHOLE union, not
against the current member.  On acceptance it writes the current index as an
unsigned varint, then that member's payload; falling off the loop raises
`TypeError`.  `allMembers` stays fixed at the full member list while `members`
is the tail still to be scanned. -/
def unionPackLoop {V : Type} (allMembers : List (UMember V)) :
    List (UMember V) → UVal V → Nat → Except PyError (List Nat)
  | [], _, _ => .error .typeError
  | m :: rest, value, id =>
    let valid := match value with
      | .fieldVal tid _ => m.typeId == tid
      | .native v => unionValidateNative allMembers v
    if valid then .ok (writeUVarintNat id ++ m.pack (uvalValue value))
    else unionPackLoop allMembers rest value (id + 1)

/-- Embeds `Union._pack` (src 516-531) with an explicit value. -/
def Union_pack {V : Type} (members : List (UMember V)) (value : UVal V) :
    Except PyError (List Nat) :=
  unionPackLoop members members value 0

/-- Embeds `Union._unpack` (src 533-536): read the tag with
`_read_varint(fp, signed=False)`, then `self._members[id]._unpack(fp)`.
A tag at or beyond the member count makes the list subscript raise the builtin
`IndexError`; the source defines no `UnknownUnionTag` (nor any decode-error
class).  The tag comes from an unsigned read and is therefore never negative. -/
def Union_unpack {V : Type} (memberUnpack : List (List Nat → Except PyError (V × List Nat)))
    (bs : List Nat) : Except PyError (V × List Nat) :=
  match read_varint bs false with
  | .error e => .error e
  | .ok (id, rest) =>
    match memberUnpack.get? id.toNat with
    | none => .error .indexError
    | some u => u rest

/-- The `for item in items` loop of `Array.validate` (src 300-304): return the
first failing element's `(False, message)`, else `(True, None)`. -/
def arrayValidateItems {V : Type} (elemValidate : V → Bool × Option String) :
    List V → Bool × Option String
  | [] => (true, none)
  | i :: rest =>
    match elemValidate i with
    | (true, _) => arrayValidateItems elemValidate rest
    | (false, msg) => (false, msg)

/-- Embeds `Array.validate` (src 295-304).  Both guards test the same condition
`self._length > 0 and len(items) > self._length`; the first guard's f-string
message mentions the undefined name `cls`, so a too-long collection raises the
builtin `NameError` while formatting the message.  No lower bound on the
element count is checked.  `length` is the instance `_length`. -/
def Array_validate {V : Type} (elemValidate : V → Bool × Option String)
    (length : Nat) (items : List V) : Except PyError (Bool × Option String) :=
  if 0 < length ∧ length < items.length then .error .nameError
  else .ok (arrayValidateItems elemValidate items)

/-- Embeds `Array._pack` (src 306-317) with an explicit value.  When the class-level
`_length` is `0` (also the case for instances whose fixed length was passed to
`__init__`, which sets only the instance attribute) the element count is
written as an unsigned varint followed by the elements.  Otherwise the line
`length = self.__class__.__length` name-mangles to the undefined attribute
`_Array__length` and raises `AttributeError` before anything is written. -/
def Array_pack {V : Type} (elemPack : V → List Nat) (clsLength : Nat)
    (value : List V) : Except PyError (List Nat) :=
  if clsLength = 0 then
    .ok (writeUVarintNat value.length ++ (value.map elemPack).flatten)
  else .error .attributeError

/-- Embeds `Map._pack` (src 418-425): the first line reads
`if value is not None: value = self._value` — the `None` test is inverted, so a
caller-supplied map is discarded and replaced by the descriptor's own stored
`self._value`, while a missing value stays `None` and `len(value)` raises
`TypeError`.  The pair count of whichever map survives is written as an
unsigned varint, then each key and value in that map's iteration order. -/
def Map_pack {K V : Type} (keyPack : K → List Nat) (valPack : V → List Nat)
    (selfValue : List (K × V)) (value : Option (List (K × V))) :
    Except PyError (List Nat) :=
  let value := match value with
    | some _ => some selfValue
    | none => none
  match value with
  | none => .error .typeError
  | some m =>
    .ok (writeUVarintNat m.length ++ (m.map (fun kv => keyPack kv.1 ++ valPack kv.2)).flatten)

/-- A value a Python `validate` method may return: the `Field` subclasses in
`encoder.py` (`Array`, `Map`, `Union`, `Optional`, `Struct`) return a
`(bool, message)` tuple, while the primitive fields in `types.py` return a
bare `bool`. -/
inductive PyRet where
  | bool (b : Bool)
  | pair (b : Bool) (msg : Option String)

/-- Python truthiness of a `validate` result: a bare bool is its own truth
value; a 2-tuple is non-empty and therefore always truthy, regardless of the
bool inside it. -/
def pyTruthy : PyRet → Bool
  | .bool b => b
  | .pair _ _ => true

/-- Embeds `Field.__init__` (src 76-81): a `None` value is replaced by the class
default, then `if not self.validate(value)` tests the truthiness of whatever
`validate` returned, raising `ValidationError` only when it is falsy. -/
def Field_init {V : Type} (validate : Option V → PyRet) (default : Option V)
    (value : Option V) : Except PyError (Option V) :=
  let v := match value with
    | none => default
    | some _ => value
  if pyTruthy (validate v) then .ok v else .error .validationError

/-- Embeds `Field.__set__` (src 93-101): `valid, message = self.validate(value)`
tuple-unpacks the result (raising `TypeError` on a bare bool), then raises
`ValidationError` exactly when the unpacked bool is false; on success the
value is stored. -/
def Field_set {V : Type} (validate : Option V → PyRet) (value : Option V) :
    Except PyError (Option V) :=
  match validate value with
  | .bool _ => .error .typeError
  | .pair valid _ => if valid then .ok value else .error .validationError

/- ### helper lemmas (shared) -/

theorem emittedByte_eq_spec (v : Nat) : (v &&& 0xFF) ||| 0x80 = (v &&& 0x7F) ||| 0x80 := by
  apply Nat.eq_of_testBit_eq
  intro i
  simp only [Nat.testBit_or, Nat.testBit_and]
  have h255 : (0xFF : Nat) = 2 ^ 8 - 1 := by norm_num
  have h127 : (0x7F : Nat) = 2 ^ 7 - 1 := by norm_num
  have h128 : (0x80 : Nat) = 2 ^ 7 := by norm_num
  rw [h255, h127, h128, Nat.testBit_two_pow_sub_one, Nat.testBit_two_pow_sub_one,
    Nat.testBit_two_pow]
  rcases Nat.lt_trichotomy i 7 with h | h | h
  · have h8 : i < 8 := by omega
    have h7 : ¬(7 = i) := by omega
    simp [h, h8, h7]
  · simp [h]
  · have h7 : ¬(i < 7) := by omega
    have h8 : ¬(i < 8) := by omega
    have he : ¬(7 = i) := by omega
    simp [h7, h8, he]

theorem emittedByte_ge (v : Nat) : 0x80 ≤ (v &&& 0xFF) ||| 0x80 := by
  by_contra hlt
  push_neg at hlt
  have hpow : (v &&& 0xFF) ||| 0x80 < 2 ^ 7 := by norm_num; omega
  have hfalse : ((v &&& 0xFF) ||| 0x80).testBit 7 = false := Nat.testBit_lt_two_pow hpow
  rw [Nat.testBit_or] at hfalse
  have htrue : Nat.testBit 0x80 7 = true := by decide
  simp [htrue] at hfalse

theorem emittedByte_low_bits (v : Nat) : ((v &&& 0xFF) ||| 0x80) &&& 0x7F = v &&& 0x7F := by
  apply Nat.eq_of_testBit_eq
  intro i
  simp only [Nat.testBit_or, Nat.testBit_and]
  have h255 : (0xFF : Nat) = 2 ^ 8 - 1 := by norm_num
  have h127 : (0x7F : Nat) = 2 ^ 7 - 1 := by norm_num
  have h128 : (0x80 : Nat) = 2 ^ 7 := by norm_num
  rw [h255, h127, h128, Nat.testBit_two_pow_sub_one, Nat.testBit_two_pow_sub_one,
    Nat.testBit_two_pow]
  rcases Nat.lt_trichotomy i 7 with h | h | h
  · have h8 : i < 8 := by omega
    have h7 : ¬(7 = i) := by omega
    simp [h, h8, h7]
  · simp [h]
  · have h7 : ¬(i < 7) := by omega
    simp [h7]

theorem or_shift_recombine (output v offset : Nat) :
    (output ||| ((v &&& 0x7F) <<< offset)) ||| ((v >>> 7) <<< (offset + 7)) =
      output ||| (v <<< offset) := by
  apply Nat.eq_of_testBit_eq
  intro i
  have h127 : (0x7F : Nat) = 2 ^ 7 - 1 := by norm_num
  simp only [Nat.testBit_or, Nat.testBit_and, Nat.testBit_shiftLeft, Nat.testBit_shiftRight,
    h127, Nat.testBit_two_pow_sub_one]
  rcases Nat.lt_trichotomy i offset with h | h | h
  · have h1 : ¬(i ≥ offset) := by omega
    have h2 : ¬(i ≥ offset + 7) := by omega
    simp [h1, h2]
  · subst h
    have h2 : ¬(i ≥ i + 7) := by omega
    simp [h2]
  · by_cases h7 : offset + 7 ≤ i
    · have h1 : i ≥ offset := by omega
      have e1 : ¬(i - offset < 7) := by omega
      have e2 : 7 + (i - (offset + 7)) = i - offset := by omega
      simp [h1, h7, e1, e2]
    · have h1 : i ≥ offset := by omega
      have e1 : i - offset < 7 := by omega
      simp [h1, h7, e1]

theorem writeUVarintNat_ge {v : Nat} (h : 0x80 ≤ v) :
    writeUVarintNat v = ((v &&& 0xFF) ||| 0x80) :: writeUVarintNat (v >>> 7) := by
  rw [writeUVarintNat]
  simp [h]

theorem writeUVarintNat_lt {v : Nat} (h : v < 0x80) : writeUVarintNat v = [v] := by
  have h' : ¬(0x80 ≤ v) := by omega
  rw [writeUVarintNat]
  simp [h']

theorem spec_encodeUVarint_ge {v : Nat} (h : 0x80 ≤ v) :
    spec_encodeUVarint v = ((v &&& 0x7F) ||| 0x80) :: spec_encodeUVarint (v >>> 7) := by
  rw [spec_encodeUVarint]
  simp [h]

theorem spec_encodeUVarint_lt {v : Nat} (h : v < 0x80) : spec_encodeUVarint v = [v] := by
  have h' : ¬(0x80 ≤ v) := by omega
  rw [spec_encodeUVarint]
  simp [h']

theorem writeUVarintNat_eq_spec (v : Nat) : writeUVarintNat v = spec_encodeUVarint v := by
  induction v using Nat.strong_induction_on with
  | _ v ih =>
    by_cases h : 0x80 ≤ v
    · rw [writeUVarintNat_ge h, spec_encodeUVarint_ge h, emittedByte_eq_spec,
        ih (v >>> 7) (by rw [Nat.shiftRight_eq_div_pow]; exact Nat.div_lt_self (by omega) (by norm_num))]
    · rw [writeUVarintNat_lt (by omega), spec_encodeUVarint_lt (by omega)]

theorem readUVarintLoop_write (v : Nat) : ∀ (rest : List Nat) (output offset : Nat),
    readUVarintLoop (writeUVarintNat v ++ rest) output offset =
      .ok (output ||| (v <<< offset), rest) := by
  induction v using Nat.strong_induction_on with
  | _ v ih =>
    intro rest output offset
    by_cases h : 0x80 ≤ v
    · rw [writeUVarintNat_ge h, List.cons_append, readUVarintLoop.eq_def]
      have hb : ¬((v &&& 0xFF) ||| 0x80 < 0x80) := by
        have := emittedByte_ge v
        omega
      simp only [hb, if_false]
      rw [emittedByte_low_bits,
        ih (v >>> 7) (by rw [Nat.shiftRight_eq_div_pow]; exact Nat.div_lt_self (by omega) (by norm_num)),
        or_shift_recombine]
    · have h' : v < 0x80 := by omega
      rw [writeUVarintNat_lt h', List.cons_append, List.nil_append,
        readUVarintLoop.eq_def]
      simp [h']

theorem read_write_uvarint (v : Nat) :
    read_varint (writeUVarintNat v) false = .ok ((v : Int), []) := by
  have h := readUVarintLoop_write v [] 0 0
  rw [List.append_nil] at h
  rw [read_varint, h]
  simp

theorem readUVarintLoop_all_high : ∀ (bs : List Nat) (output offset : Nat),
    (∀ b ∈ bs, 0x80 ≤ b) → readUVarintLoop bs output offset = .error .indexError := by
  intro bs
  induction bs with
  | nil => intro _ _ _; rfl
  | cons b rest ih =>
    intro output offset hall
    rw [readUVarintLoop.eq_def]
    have hb : ¬(b < 0x80) := by
      have := hall b (List.mem_cons_self b rest)
      omega
    simp only [hb, if_false]
    exact ih _ _ (fun x hx => hall x (List.mem_cons_of_mem b hx))

theorem write_varint_unsigned_nat (v : Nat) :
    write_varint (v : Int) false = writeUVarintNat v := by
  simp [write_varint]

theorem write_varint_signed_zigzag (n : Int) :
    write_varint n true = writeUVarintNat (spec_zigzag n) := by
  by_cases hn : n < 0
  · have h0 : ¬(0 ≤ n) := by omega
    simp only [write_varint, spec_zigzag, if_pos hn, if_neg h0]
    simp only [if_true, ite_true, Bool.ite_eq_true_distrib]
    simp
  · have h0 : 0 ≤ n := by omega
    simp only [write_varint, spec_zigzag, if_neg hn, if_pos h0]
    simp

theorem unzigzag_spec_zigzag (n : Int) :
    (if spec_zigzag n % 2 = 1 then -(((spec_zigzag n / 2 : Nat) : Int) + 1)
     else ((spec_zigzag n / 2 : Nat) : Int)) = n := by
  unfold spec_zigzag
  by_cases hn : 0 ≤ n
  · rw [if_pos hn]
    have h1 : (2 * n).toNat = 2 * n.toNat := by omega
    rw [h1]
    have h2 : ¬(2 * n.toNat % 2 = 1) := by omega
    rw [if_neg h2]
    have h3 : 2 * n.toNat / 2 = n.toNat := by omega
    rw [h3]
    omega
  · rw [if_neg hn]
    have h1 : (2 * |n| - 1).toNat = 2 * n.natAbs - 1 := by
      rw [Int.abs_eq_natAbs]
      omega
    rw [h1]
    have ha : 1 ≤ n.natAbs := by omega
    have h2 : (2 * n.natAbs - 1) % 2 = 1 := by omega
    rw [if_pos h2]
    have h3 : (2 * n.natAbs - 1) / 2 = n.natAbs - 1 := by omega
    rw [h3]
    omega

theorem read_write_svarint (n : Int) :
    read_varint (write_varint n true) true = .ok (n, []) := by
  rw [write_varint_signed_zigzag]
  have h := readUVarintLoop_write (spec_zigzag n) [] 0 0
  rw [List.append_nil] at h
  simp only [read_varint, h, Nat.shiftLeft_zero, Nat.zero_or]
  rw [unzigzag_spec_zigzag]
  simp

/-- Claim C2: the unsigned varint encoder (`_write_varint` with `signed=False`)
implements exactly the base-128 algorithm of the spec — the emitted byte
`(v & 0xFF) | 0x80` coincides with the spec's `(v & 0x7f) | 0x80` — encoding
`0` yields `[0x00]`, encoding `300` yields `[0xAC, 0x02]`, and decoding the
encoding returns the original value for every natural number, in particular
for {0, 1, 127, 128, 16384, 2^64-1}. -/
theorem c2_unsigned_varint_correct :
    (∀ v : Nat, write_varint (v : Int) false = spec_encodeUVarint v)
    ∧ write_varint 0 false = [0x00]
    ∧ write_varint 300 false = [0xAC, 0x02]
    ∧ (∀ v : Nat, read_varint (write_varint (v : Int) false) false = .ok ((v : Int), [])) := by
  refine ⟨?_, ?_, ?_, ?_⟩
  · intro v
    rw [write_varint_unsigned_nat, writeUVarintNat_eq_spec]
  · have h := write_varint_unsigned_nat 0
    norm_num at h
    rw [h, writeUVarintNat_lt (by norm_num)]
  · have h := write_varint_unsigned_nat 300
    norm_num at h
    rw [h, writeUVarintNat_ge (by norm_num)]
    have hb : ((300 : Nat) &&& 0xFF) ||| 0x80 = 0xAC := by decide
    have hs : (300 : Nat) >>> 7 = 2 := by decide
    rw [hb, hs, writeUVarintNat_lt (by norm_num)]
  · intro v
    rw [write_varint_unsigned_nat]
    exact read_write_uvarint v

/-- Claim C3: signed integers are zigzag-mapped before unsigned varint
encoding (`zigzag(n) = 2n` for `n ≥ 0`, `2|n|-1` for `n < 0`) and signed
decoding reverses this exactly: encoding `-1` yields `[0x01]`, encoding `1`
yields `[0x02]`, and the signed round trip
`_read_varint(_write_varint(n, signed=True), signed=True)` returns `n` for
every integer, in particular for {-5, -1, 0, 1, 1000000, -1000000}. -/
theorem c3_zigzag_correct :
    write_varint (-1) true = [0x01]
    ∧ write_varint 1 true = [0x02]
    ∧ (∀ n : Int, write_varint n true = spec_encodeUVarint (spec_zigzag n))
    ∧ (∀ n : Int, read_varint (write_varint n true) true = .ok (n, [])) := by
  refine ⟨?_, ?_, ?_, ?_⟩
  · rw [write_varint_signed_zigzag]
    have h : spec_zigzag (-1) = 1 := by simp [spec_zigzag]
    rw [h, writeUVarintNat_lt (by norm_num)]
  · rw [write_varint_signed_zigzag]
    have h : spec_zigzag 1 = 2 := by simp [spec_zigzag]
    rw [h, writeUVarintNat_lt (by norm_num)]
  · intro n
    rw [write_varint_signed_zigzag, writeUVarintNat_eq_spec]
  · exact read_write_svarint

/-- Claim C1 (refuted by the code — the claim states the intended behaviour):
the round trip `decode(descriptor, encode(descriptor, value))` does NOT hold
for every supported descriptor.  Evaluating the code at a `Map` field whose
stored value is the one-entry map {"k": "v"} (keys/values as UTF-8 byte
lists): `Field.pack` invokes `Map._pack(fp)` with `value=None`, and the
inverted check `if value is not None: value = self._value` leaves `value` as
`None`, so `len(value)` raises `TypeError` — no bytes are ever produced for
the validating value, hence no round trip exists for this descriptor. -/
theorem c1_map_pack_breaks_round_trip :
    Map_pack write_string write_string [([107], [118])] none = .error .typeError := rfl

/-- Claim C4 (refuted by the code — the claim states the intended framing):
`Optional._pack` for a present value writes ONLY the wrapped encoding with no
`0x01` presence byte — packing present `"a"` over a `Str` wrap yields
`[0x01, 0x61]` (varint length 1 then `'a'`), not the claimed
`[0x01] ++ encode("a") = [0x01, 0x01, 0x61]` — and for an absent value it
writes `0x00` and then still invokes the wrapped pack on `None`, which raises
`AttributeError` instead of stopping after exactly `[0x00]`. -/
theorem c4_optional_pack_bytes :
    Optional_pack strFieldPack none (some [97]) = .ok [0x01, 0x61]
    ∧ Optional_pack strFieldPack none none = .error .attributeError := by
  constructor
  · simp [Optional_pack, strFieldPack, write_string, writeUVarintNat_lt (v := 1) (by norm_num)]
  · rfl

/-- Claim C5 (refuted by the code — the claim states the intended rule): for a
native value, `Union._pack` tests `self.validate(value)` — acceptance by the
WHOLE union — at every loop position instead of testing the current member, so
a value accepted only by member index 2 of 3 is written with tag `0x00` and
member 0's encoder (here payload `[200]`), not the claimed tag `0x02` with
member 2's encoder. -/
theorem c5_union_pack_wrong_member :
    Union_pack (V := Nat)
      [⟨0, fun _ => (false, none), fun _ => [200]⟩,
       ⟨1, fun _ => (false, none), fun _ => [201]⟩,
       ⟨2, fun _ => (true, none), fun _ => [202]⟩]
      (.native 7) = .ok [0x00, 200] := by
  simp [Union_pack, unionPackLoop, unionValidateNative, uvalValue,
    writeUVarintNat_lt (v := 0) (by norm_num)]

/-- Claim C6, counterexample: decoding tag `5` against a 3-member union does
not fail with a typed `UnknownUnionTag` — no such class exists anywhere in the
source — but with the builtin `IndexError` from the out-of-range list
subscript `self._members[id]`. -/
theorem c6_union_tag_counterexample :
    Union_unpack (V := Nat)
      [fun bs => .ok (0, bs), fun bs => .ok (0, bs), fun bs => .ok (0, bs)]
      [5] = .error .indexError := rfl

/-- Claim C6, amended: a decoded tag at or beyond the member count always
fails — it is never treated as index 0 and never wrapped modulo the member
count — but the failure is the untyped builtin `IndexError`, not a typed
`UnknownUnionTag` (the source defines no decode-error classes at all). -/
theorem c6_union_tag_amended {V : Type}
    (mu : List (List Nat → Except PyError (V × List Nat))) (bs rest : List Nat) (id : Int)
    (hread : read_varint bs false = .ok (id, rest)) (hlen : mu.length ≤ id.toNat) :
    Union_unpack mu bs = .error .indexError := by
  simp only [Union_unpack, hread]
  rw [List.get?_eq_none.mpr hlen]

/-- Witness for `c6_union_tag_amended` at tag 7 against a 2-member union. -/
theorem c6_union_tag_witness :
    Union_unpack (V := Nat) [fun bs => .ok (1, bs), fun bs => .ok (2, bs)] [7]
      = .error .indexError :=
  c6_union_tag_amended [fun bs => .ok (1, bs), fun bs => .ok (2, bs)] [7] [] 7 rfl (by decide)

/-- Claim C7, counterexample: supplying 2 elements against a fixed length-3
array does NOT fail validation — `Array.validate` only ever compares
`len(items) > self._length`, so the undersized collection passes with
`(True, None)` instead of the claimed `ValidationError`. -/
theorem c7_array_validate_counterexample :
    Array_validate (fun _ : Nat => (true, (none : Option String))) 3 [1, 2]
      = .ok (true, none) := rfl

theorem arrayValidateItems_all_true {V : Type} (ev : V → Bool × Option String) :
    ∀ items : List V, (∀ i ∈ items, (ev i).1 = true) →
      arrayValidateItems ev items = (true, none) := by
  intro items
  induction items with
  | nil => intro _; rfl
  | cons a rest ih =>
    intro h
    have ha := h a (List.mem_cons_self a rest)
    rcases hev : ev a with ⟨b, m⟩
    rw [hev] at ha
    simp only at ha
    subst ha
    simp only [arrayValidateItems, hev]
    exact ih (fun i hi => h i (List.mem_cons_of_mem a hi))

/-- Claim C7, amended: `Array.validate` enforces only an UPPER bound on the
element count — at most `n` valid elements pass (so fewer than `n` succeed,
refuting the exact-equality requirement), while more than `n` elements raise
the builtin `NameError` (the rejection message references the undefined name
`cls`) rather than returning a `ValidationError` — and no count-prefix-free
encoding exists: `Array._pack` writes a varint count prefix whenever the
class-level `_length` is `0` (which includes every fixed length passed as a
constructor argument, since that sets only the instance attribute), and the
class-level fixed-length path raises `AttributeError` on the mangled,
undefined `self.__class__.__length`. -/
theorem c7_array_validate_amended :
    (∀ {V : Type} (ev : V → Bool × Option String) (n : Nat) (items : List V),
      items.length ≤ n → (∀ i ∈ items, (ev i).1 = true) →
      Array_validate ev n items = .ok (true, none))
    ∧ (∀ {V : Type} (ev : V → Bool × Option String) (n : Nat) (items : List V),
      0 < n → n < items.length → Array_validate ev n items = .error .nameError)
    ∧ (∀ {V : Type} (ep : V → List Nat) (value : List V),
      Array_pack ep 0 value = .ok (writeUVarintNat value.length ++ (value.map ep).flatten))
    ∧ (∀ {V : Type} (ep : V → List Nat) (c : Nat) (value : List V),
      0 < c → Array_pack ep c value = .error .attributeError) := by
  refine ⟨?_, ?_, ?_, ?_⟩
  · intro V ev n items hlen hall
    have hcond : ¬(0 < n ∧ n < items.length) := by omega
    rw [Array_validate, if_neg hcond, arrayValidateItems_all_true ev items hall]
  · intro V ev n items hpos hlen
    have hcond : 0 < n ∧ n < items.length := ⟨hpos, hlen⟩
    rw [Array_validate, if_pos hcond]
  · intro V ep value
    rw [Array_pack, if_pos rfl]
  · intro V ep c value hc
    have hcond : ¬(c = 0) := by omega
    rw [Array_pack, if_neg hcond]

/-- Witness for `c7_array_validate_amended`: exactly 3 of 3 elements pass, 4
of 3 raise `NameError`, and the class-level fixed-length pack path raises
`AttributeError`. -/
theorem c7_array_validate_witness :
    Array_validate (fun _ : Nat => (true, (none : Option String))) 3 [1, 2, 3]
      = .ok (true, none)
    ∧ Array_validate (fun _ : Nat => (true, (none : Option String))) 3 [1, 2, 3, 4]
      = .error .nameError
    ∧ Array_pack (fun v : Nat => [v]) 3 [1, 2, 3] = .error .attributeError :=
  ⟨c7_array_validate_amended.1 _ 3 _ (by decide) (fun i _ => rfl),
   c7_array_validate_amended.2.1 _ 3 _ (by decide) (by decide),
   c7_array_validate_amended.2.2.2 _ 3 _ (by decide)⟩

/-- Claim C8 (refuted by the code — the claim states the intended behaviour):
`Map._pack`, called with the map to encode as its `value` argument, does not
write that map at all: the inverted check `if value is not None:
value = self._value` replaces the supplied 2-entry map {"k": "v", "j": "w"}
with the descriptor's stored (empty) map, so the output is `[0x00]` — the
stored map's count — instead of the claimed `[0x02]` followed by the supplied
entries. -/
theorem c8_map_pack_ignores_value :
    Map_pack write_string write_string []
      (some [([107], [118]), ([106], [119])]) = .ok [0x00] := by
  simp [Map_pack, writeUVarintNat_lt (v := 0) (by norm_num)]

/-- Claim C9, counterexample: a source exhausted mid-varint (single byte
`0x80` with the continuation bit set) fails with the builtin `IndexError`
from `fp.read(1)[0]`, not a typed `Truncated`; and a varint whose magnitude
is `2^64` — beyond the claimed 64-bit target width — decodes successfully to
its full value with no `VarintOverflow` (neither error class exists in the
source). -/
theorem c9_read_varint_counterexample :
    read_varint [0x80] false = .error .indexError
    ∧ read_varint [0x80, 0x80, 0x80, 0x80, 0x80, 0x80, 0x80, 0x80, 0x80, 0x02] false
      = .ok ((18446744073709551616 : Int), []) := by
  constructor
  · rfl
  · rfl

/-- Claim C9, amended: when every byte of the source has the continuation bit
set the decoder exhausts the source and raises the untyped builtin
`IndexError` (the source defines no `Truncated`), and the decoder performs no
width check whatsoever: decoding the encoding of ANY natural number — however
far beyond 64 bits — returns that number successfully (no `VarintOverflow`
exists). -/
theorem c9_read_varint_amended :
    (∀ bs : List Nat, (∀ b ∈ bs, 0x80 ≤ b) → read_varint bs false = .error .indexError)
    ∧ (∀ v : Nat, read_varint (writeUVarintNat v) false = .ok ((v : Int), [])) := by
  constructor
  · intro bs hall
    simp only [read_varint, readUVarintLoop_all_high bs 0 0 hall]
  · exact read_write_uvarint

/-- Witness for `c9_read_varint_amended` on the all-continuation source
`[0xFF]`. -/
theorem c9_read_varint_witness :
    read_varint [0xFF] false = .error .indexError :=
  c9_read_varint_amended.1 [0xFF] (by decide)

/-- Claim C10: for any `validate` that returns a `(bool, message)` tuple — as
`Array.validate`, `Map.validate`, `Union.validate` and `Optional.validate`
do — `Field.__init__` with an explicit value never raises `ValidationError`,
even when the bool component is `False`, because `if not self.validate(value)`
tests the truthiness of the tuple itself and a non-empty tuple is always
truthy; only `Field.__set__`, which unpacks the tuple, rejects when the bool
is `False`. -/
theorem c10_field_init_truthiness : ∀ {V : Type},
    (∀ (validate : Option V → Bool × Option String) (d : Option V) (x : V),
      Field_init (fun o => PyRet.pair (validate o).1 (validate o).2) d (some x)
        = .ok (some x))
    ∧ (∀ (validate : Option V → Bool × Option String) (x : V),
      (validate (some x)).1 = false →
      Field_set (fun o => PyRet.pair (validate o).1 (validate o).2) (some x)
        = .error .validationError) := by
  intro V
  constructor
  · intro validate d x
    simp [Field_init, pyTruthy]
  · intro validate x h
    simp [Field_set, h]

/-- Witness for `c10_field_init_truthiness` with a validator that always
returns `(False, None)`: construction still succeeds, assignment rejects. -/
theorem c10_field_init_witness :
    Field_init (V := Nat) (fun _ => PyRet.pair false none) none (some 1) = .ok (some 1)
    ∧ Field_set (V := Nat) (fun _ => PyRet.pair false none) (some 1)
      = .error .validationError := by
  constructor
  · exact (c10_field_init_truthiness (V := Nat)).1 (fun _ => (false, none)) none 1
  · exact (c10_field_init_truthiness (V := Nat)).2 (fun _ => (false, none)) 1 rfl
